import Mathlib

/-
Shallow embedding of the TEU bond-calculation core (src/App.tsx).

Modelling conventions:
* JavaScript numbers are modelled as exact rationals (`Rat`); the rounding
  of finite double arithmetic is not modelled.  The special values
  `Infinity`, `-Infinity` and `NaN` that JavaScript arithmetic can produce
  are modelled explicitly by the `JsVal` type.
* Arithmetic on `Rat` is expressed through the executable wrappers
  `qadd`, `qsub`, `qmul`, `qdiv`, `qneg` below; each is proved equal to the
  corresponding Mathlib field operation.
* Raw text inputs that the app feeds through `parseFloat(x) || 0` are
  modelled as `Option Rat` (`none` stands for unparseable text) and the
  `|| 0` fallback as `Option.getD 0`.
* Strings are manipulated through their character lists (`String.data`).
-/

namespace TEU

/-- Exact rational addition (JavaScript `+` on numbers). -/
def qadd (a b : ℚ) : ℚ := mkRat (a.num * b.den + b.num * a.den) (a.den * b.den)

/-- Exact rational negation (JavaScript unary `-`). -/
def qneg (a : ℚ) : ℚ := mkRat (-a.num) a.den

/-- Exact rational subtraction (JavaScript binary `-`). -/
def qsub (a b : ℚ) : ℚ := qadd a (qneg b)

/-- Exact rational multiplication (JavaScript `*`). -/
def qmul (a b : ℚ) : ℚ := mkRat (a.num * b.num) (a.den * b.den)

/-- Exact rational division (JavaScript `/` away from a zero divisor). -/
def qdiv (a b : ℚ) : ℚ := Rat.divInt (a.num * b.den) ((a.den : ℤ) * b.num)

/-- The ASCII whitespace characters matched by the JavaScript `\s` class
(the sole ones reachable from this app's inputs). -/
def isWsChar (c : Char) : Bool :=
  c == ' ' || c == '\t' || c == '\n' || c == '\r'

/-- `hasPre p s` is true when the character list `p` is an initial
segment of `s`. -/
def hasPre : List Char → List Char → Bool
  | [], _ => true
  | _ :: _, [] => false
  | p :: ps, c :: cs => p == c && hasPre ps cs

/-- `hasSub p s`: `p` occurs as a contiguous segment of `s`
(JavaScript `String.prototype.includes`). -/
def hasSub (p : List Char) : List Char → Bool
  | [] => hasPre p []
  | c :: cs => hasPre p (c :: cs) || hasSub p cs

/-- `suffixB p s`: `p` is a final segment of `s`. -/
def suffixB (p s : List Char) : Bool := hasPre p.reverse s.reverse

/-- JavaScript `s.includes(pat)`. -/
def containsSub (s pat : String) : Bool := hasSub pat.data s.data

/-- Multiplicity of the factor `p` in `n`, computed with explicit fuel so
that the definition reduces by iota rules. -/
def countFac (p : ℕ) : ℕ → ℕ → ℕ
  | 0, _ => 0
  | f + 1, n => if 1 < p ∧ n ≠ 0 ∧ n % p = 0 then countFac p f (n / p) + 1 else 0

/-- Round half up of the nonnegative fraction `n / den`. -/
def roundHalfNat (n den : ℕ) : ℕ := (2 * n + den) / (2 * den)

/-- `|q| * 10 ^ d`, rounded to the nearest integer (half away from zero) —
the magnitude ECMAScript `toFixed` renders after its sign split. -/
def fixMag (d : ℕ) (q : ℚ) : ℕ := roundHalfNat (q.num.natAbs * 10 ^ d) q.den

/-- Decimal digits of a natural number. -/
def natDigits (n : ℕ) : List Char := (Nat.repr n).data

/-- Insert a decimal point `d` digits from the right of the digit string of
`m`, left-padding with zeros so that an integer digit remains (the fixed
layout of ECMAScript number formatting). -/
def fixedLayout (d m : ℕ) : List Char :=
  if d = 0 then natDigits m
  else
    let ds := natDigits m
    let ds := if ds.length < d + 1 then List.replicate (d + 1 - ds.length) '0' ++ ds else ds
    ds.take (ds.length - d) ++ '.' :: ds.drop (ds.length - d)

/-- ECMAScript `Number.prototype.toFixed d` on an exact rational. -/
def formatFixed (d : ℕ) (q : ℚ) : String :=
  let sign : List Char := if q.num < 0 then ['-'] else []
  String.mk (sign ++ fixedLayout d (fixMag d q))

/-- ECMAScript `Number.prototype.toString` for the rationals that arise
from double values (denominator a product of 2s and 5s): the shortest exact
decimal expansion.  Exponential notation (for magnitudes at least 1e21 or
below 1e-6) is not modelled; rationals without a terminating decimal
expansion (unreachable from double-valued code) fall back to a fraction
rendering. -/
def ratToString (q : ℚ) : String :=
  if q.num = 0 then String.mk ['0']
  else
    let sign : List Char := if q.num < 0 then ['-'] else []
    let n := q.num.natAbs
    let d := q.den
    let a := countFac 2 d d
    let b := countFac 5 d d
    if d = 2 ^ a * 5 ^ b then
      String.mk (sign ++ fixedLayout (max a b) (n * 10 ^ max a b / d))
    else
      String.mk (sign ++ natDigits n ++ '/' :: natDigits d)

/-- `a ^ n` for a natural exponent, through the executable multiplication. -/
def qpowN (a : ℚ) : ℕ → ℚ
  | 0 => 1
  | n + 1 => qmul (qpowN a n) a

/-- `a ^ n` for an integer exponent (JavaScript `**` on an integral
exponent, away from a zero base with negative exponent). -/
def qzpow (a : ℚ) : ℤ → ℚ
  | .ofNat m => qpowN a m
  | .negSucc m => qdiv 1 (qpowN a (m + 1))

/-- A JavaScript number value: a finite number (exact rational),
a signed infinity (`true` = `Infinity`, `false` = `-Infinity`), or `NaN`. -/
inductive JsVal where
  | num : ℚ → JsVal
  | inf : Bool → JsVal
  | nan : JsVal
deriving DecidableEq

/-- JavaScript unary minus. -/
def jsNeg : JsVal → JsVal
  | .num q => .num (qneg q)
  | .inf b => .inf (!b)
  | .nan => .nan

/-- JavaScript `+` on numbers. -/
def jsAdd : JsVal → JsVal → JsVal
  | .nan, _ => .nan
  | _, .nan => .nan
  | .num a, .num b => .num (qadd a b)
  | .inf b, .num _ => .inf b
  | .num _, .inf b => .inf b
  | .inf b1, .inf b2 => if b1 = b2 then .inf b1 else .nan

/-- JavaScript binary `-` on numbers. -/
def jsSub (a b : JsVal) : JsVal := jsAdd a (jsNeg b)

/-- Sign of a nonzero rational as a JavaScript infinity sign. -/
def qpos (a : ℚ) : Bool := decide (0 < a)

/-- JavaScript `*` on numbers (negative zero is not modelled). -/
def jsMul : JsVal → JsVal → JsVal
  | .nan, _ => .nan
  | _, .nan => .nan
  | .num a, .num b => .num (qmul a b)
  | .inf b, .num a => if a = 0 then .nan else .inf (b == qpos a)
  | .num a, .inf b => if a = 0 then .nan else .inf (b == qpos a)
  | .inf b1, .inf b2 => .inf (b1 == b2)

/-- JavaScript `/` on numbers (negative zero is not modelled: a finite
quantity divided by zero is given the sign of the dividend). -/
def jsDiv : JsVal → JsVal → JsVal
  | .nan, _ => .nan
  | _, .nan => .nan
  | .num a, .num b =>
    if b = 0 then (if a = 0 then .nan else .inf (qpos a)) else .num (qdiv a b)
  | .num _, .inf _ => .num 0
  | .inf b, .num a => if a = 0 then .inf b else .inf (b == qpos a)
  | .inf _, .inf _ => .nan

/-- JavaScript `**` on numbers.  Finite bases with integral exponents are
exact; a fractional exponent generally yields an irrational result, which
lies outside the exact-rational model and is mapped to `NaN` here (for a
negative base that is also the JavaScript behaviour).  No claim depends on
fractional exponents. -/
def jsPow (a b : JsVal) : JsVal :=
  match b with
  | .num e' =>
    if e' = 0 then .num 1
    else
      match a with
      | .nan => .nan
      | .num x =>
        if e'.den = 1 then
          if x = 0 ∧ e'.num < 0 then .inf true else .num (qzpow x e'.num)
        else .nan
      | .inf b1 =>
        if 0 < e' then
          if b1 then .inf true
          else if e'.den = 1 ∧ e'.num % 2 ≠ 0 then .inf false else .inf true
        else .num 0
  | .inf be =>
    match a with
    | .nan => .nan
    | .num x =>
      if |x| = 1 then .nan
      else if (1 < |x|) = (be = true) then .inf true else .num 0
    | .inf _ => if be then .inf true else .num 0
  | .nan => .nan

/-- Tokens of the arithmetic expression sublanguage reachable through the
character gates: numeric literals, `+ - * / **` and parentheses, plus the
update operators `++` and `--` that maximal-munch lexing forms from
adjacent sign characters.  An update operator requires an assignable
reference as its operand, and the gated sublanguage has none (only
literals and parenthesized expressions), so every lexed `++`/`--` makes
the whole program an early `SyntaxError`: no parser production below
consumes `dplus`/`dminus`. -/
inductive Tok where
  | num : ℚ → Tok
  | plus
  | minus
  | star
  | slash
  | dstar
  | dplus
  | dminus
  | lpar
  | rpar
deriving DecidableEq

/-- A character of a JavaScript numeric literal restricted to the gates'
alphabet: a digit or a decimal point. -/
def isNumChar (c : Char) : Bool := c.isDigit || c == '.'

/-- Value of a list of decimal digit characters. -/
def digitsVal (l : List Char) : ℕ := l.foldl (fun a c => a * 10 + (c.toNat - 48)) 0

/-- Value of a maximal digit-or-dot run: a valid JavaScript strict-mode
decimal literal has at most one dot, at least one digit, and an integer
part without a leading zero (`5.`, `.5`, `0.5`, `5` are all valid; `.`,
`1..2`, and the legacy octal / non-octal forms `00`, `012`, `09` are
syntax errors — the app is an ES module, so its direct `eval` runs in
strict mode, where every `0`-leading multi-digit integer part is an early
error.  The `Function`-constructor formula path runs sloppy, where a
legacy octal literal typed into a formula would instead evaluate; no
claim depends on that corner and it is not modelled). -/
def litVal (l : List Char) : Option ℚ :=
  let ip := l.takeWhile (fun c => c != '.')
  match ip with
  | '0' :: _ :: _ => none
  | _ =>
    match l.dropWhile (fun c => c != '.') with
    | [] => if ip = [] then none else some (digitsVal ip)
    | _ :: fp =>
      if fp.any (fun c => c == '.') then none
      else if ip = [] ∧ fp = [] then none
      else some (mkRat ((digitsVal ip * 10 ^ fp.length + digitsVal fp : ℕ) : ℤ) (10 ^ fp.length))

/-- Lexer for the gated expression language, with explicit fuel (one unit
per consumed chunk).  Whitespace separates tokens; any character outside
the alphabet fails the lex.  Maximal munch applies to adjacent operator
characters: `**`, and the update operators `++` and `--`, are single
tokens when the two characters touch (so `5--3` lexes as `5 -- 3` and is
a syntax error, while `5- -3` lexes as two minus signs and evaluates). -/
def tokenize : ℕ → List Char → Option (List Tok)
  | 0, _ => none
  | _ + 1, [] => some []
  | f + 1, c :: rest =>
    if isWsChar c then tokenize f rest
    else if isNumChar c then
      match litVal ((c :: rest).takeWhile isNumChar) with
      | none => none
      | some q =>
        match tokenize f ((c :: rest).dropWhile isNumChar) with
        | none => none
        | some ts => some (.num q :: ts)
    else if c = '+' then
      match rest with
      | '+' :: rest2 => (tokenize f rest2).map (.dplus :: ·)
      | _ => (tokenize f rest).map (.plus :: ·)
    else if c = '-' then
      match rest with
      | '-' :: rest2 => (tokenize f rest2).map (.dminus :: ·)
      | _ => (tokenize f rest).map (.minus :: ·)
    else if c = '*' then
      match rest with
      | '*' :: rest2 => (tokenize f rest2).map (.dstar :: ·)
      | _ => (tokenize f rest).map (.star :: ·)
    else if c = '/' then (tokenize f rest).map (.slash :: ·)
    else if c = '(' then (tokenize f rest).map (.lpar :: ·)
    else if c = ')' then (tokenize f rest).map (.rpar :: ·)
    else none

/-- Parsing modes of the recursive-descent parser for the JavaScript
expression grammar over `+ - * / ** ( )` and numeric literals, with the
accumulator of a left-associative chain carried in the mode.  `pw` parses
an ExponentiationExpression; per the JavaScript grammar a unary `+`/`-`
operand cannot be the left operand of `**` (`-2**2` is a syntax error). -/
inductive PMode where
  | addE
  | addLoop : JsVal → PMode
  | mulE
  | mulLoop : JsVal → PMode
  | pw
  | unry
  | prim

/-- Fuel-indexed recursive-descent parser; returns the parsed value and the
unconsumed tokens. -/
def parseM : ℕ → PMode → List Tok → Option (JsVal × List Tok)
  | 0, _, _ => none
  | f + 1, mode, ts =>
    match mode with
    | .addE =>
      match parseM f .mulE ts with
      | some (v, rest) => parseM f (.addLoop v) rest
      | none => none
    | .addLoop acc =>
      match ts with
      | .plus :: rest =>
        match parseM f .mulE rest with
        | some (v, r2) => parseM f (.addLoop (jsAdd acc v)) r2
        | none => none
      | .minus :: rest =>
        match parseM f .mulE rest with
        | some (v, r2) => parseM f (.addLoop (jsSub acc v)) r2
        | none => none
      | _ => some (acc, ts)
    | .mulE =>
      match parseM f .pw ts with
      | some (v, rest) => parseM f (.mulLoop v) rest
      | none => none
    | .mulLoop acc =>
      match ts with
      | .star :: rest =>
        match parseM f .pw rest with
        | some (v, r2) => parseM f (.mulLoop (jsMul acc v)) r2
        | none => none
      | .slash :: rest =>
        match parseM f .pw rest with
        | some (v, r2) => parseM f (.mulLoop (jsDiv acc v)) r2
        | none => none
      | _ => some (acc, ts)
    | .pw =>
      match ts with
      | .plus :: _ =>
        match parseM f .unry ts with
        | some (_, .dstar :: _) => none
        | some (v, rest) => some (v, rest)
        | none => none
      | .minus :: _ =>
        match parseM f .unry ts with
        | some (_, .dstar :: _) => none
        | some (v, rest) => some (v, rest)
        | none => none
      | _ =>
        match parseM f .prim ts with
        | some (base, .dstar :: r2) =>
          match parseM f .pw r2 with
          | some (e', r3) => some (jsPow base e', r3)
          | none => none
        | some (base, rest) => some (base, rest)
        | none => none
    | .unry =>
      match ts with
      | .plus :: rest =>
        match parseM f .unry rest with
        | some (v, r) => some (v, r)
        | none => none
      | .minus :: rest =>
        match parseM f .unry rest with
        | some (v, r) => some (jsNeg v, r)
        | none => none
      | _ => parseM f .prim ts
    | .prim =>
      match ts with
      | .num q :: rest => some (.num q, rest)
      | .lpar :: rest =>
        match parseM f .addE rest with
        | some (v, .rpar :: r2) => some (v, r2)
        | _ => none
      | _ => none

/-- Evaluation of an expression string exactly as JavaScript
`eval`/`Function` would on the gated sublanguage: `none` models a thrown
`SyntaxError` (or the `undefined` produced by an empty program, which the
callers also treat as a failure). -/
def jsEval (e : String) : Option JsVal :=
  match tokenize (e.data.length + 1) e.data with
  | none => none
  | some ts =>
    match parseM (10 * (ts.length + 1)) .addE ts with
    | some (v, []) => some v
    | _ => none

/-- Split a variable name at its first underscore (JavaScript
`key.replace('_', '_?')` replaces only the first occurrence, so only the
first underscore of the regex pattern becomes optional). -/
def splitFirstUnd : List Char → Option (List Char × List Char)
  | [] => none
  | '_' :: r => some ([], r)
  | c :: r =>
    match splitFirstUnd r with
    | some (a, b) => some (c :: a, b)
    | none => none

/-- Length of the match of the pattern built from `key` (its first
underscore made optional, greedily preferred present) at the head of `s`;
`none` when the pattern does not match there. -/
def patMatch (key s : List Char) : Option ℕ :=
  match splitFirstUnd key with
  | some (pre, post) =>
    if hasPre (pre ++ '_' :: post) s then some (pre.length + 1 + post.length)
    else if hasPre (pre ++ post) s then some (pre.length + post.length)
    else none
  | none => if hasPre key s then some key.length else none

/-- Global regex replacement (JavaScript `String.replace(new RegExp(p,'g'),
rep)`): scan left to right, replace each non-overlapping match, continue
after it; on an empty-width match emit the replacement and advance one
character. -/
def replAll : ℕ → List Char → List Char → List Char → List Char
  | 0, _, _, s => s
  | _ + 1, key, rep, [] => match patMatch key [] with
    | some _ => rep
    | none => []
  | f + 1, key, rep, c :: rest =>
    match patMatch key (c :: rest) with
    | some 0 => rep ++ c :: replAll f key rep rest
    | some (n + 1) => rep ++ replAll f key rep ((c :: rest).drop (n + 1))
    | none => c :: replAll f key rep rest

/-- The variable-substitution loop of `evaluateFormula` (src/App.tsx
lines 57-60): for each binding, in order, globally replace the pattern
`key.replace('_', '_?')` by the decimal rendering of the value.
`Record<string, number>` is modelled as an association list in insertion
order (the order of `Object.entries`). -/
def substituteVars (formula : String) (vars : List (String × ℚ)) : String :=
  String.mk (vars.foldl
    (fun e kv => replAll (e.length + 1) kv.1.data (ratToString kv.2).data e) formula.data)

/-- A character admitted by the formula security gate's class
`[\d\s+\-*/().]` other than whitespace. -/
def formulaOkChar (c : Char) : Bool :=
  c.isDigit || c == '+' || c == '-' || c == '*' || c == '/' || c == '(' || c == ')' || c == '.'

/-- The security gate of `evaluateFormula` (src/App.tsx line 63): the
expression, with whitespace stripped, must be a nonempty string of
characters from the class `[\d\s+\-*/().]`. -/
def formulaGate (e : String) : Bool :=
  let t := e.data.filter (fun c => !isWsChar c)
  !t.isEmpty && t.all (fun c => formulaOkChar c || isWsChar c)

/-- `evaluateFormula` (src/App.tsx lines 54-74): substitute the variables,
run the character gate (a failure throws, caught as 0), evaluate with the
`Function` constructor (a syntax error is caught as 0), and clamp a
non-finite result to 0. -/
def evaluateFormula (formula : String) (vars : List (String × ℚ)) : ℚ :=
  let expression := substituteVars formula vars
  if formulaGate expression then
    match jsEval expression with
    | some (.num r) => r
    | some _ => 0
    | none => 0
  else 0

/-- JavaScript `isNaN` on a value `evaluateFormula` has returned: the `ℚ`
codomain denotes exactly the finite JavaScript numbers (the evaluator's
final clamp maps `Infinity` and `NaN` to 0), so the test is constantly
false. -/
def jsIsNaN (_ : ℚ) : Bool := false

/-- JavaScript `isFinite` on a value `evaluateFormula` has returned;
constantly true for the same reason. -/
def jsIsFinite (_ : ℚ) : Bool := true

/-- The required-variable loop of `validateFormula` (src/App.tsx lines
80-84): `false` as soon as some required variable is not a literal
substring of the formula. -/
def checkVarsB (formula : String) : List String → Bool
  | [] => true
  | v :: rest => if containsSub formula v then checkVarsB formula rest else false

/-- `validateFormula` (src/App.tsx lines 77-95): all required variables
must occur literally, then the formula is probed with every required
variable bound to 100 and the result tested with `!isNaN && isFinite`. -/
def validateFormula (formula : String) (requiredVars : List String) : Bool :=
  if checkVarsB formula requiredVars then
    let testVars := requiredVars.map (fun v => (v, (100 : ℚ)))
    let result := evaluateFormula formula testVars
    !jsIsNaN result && jsIsFinite result
  else false

/-- The admin settings record (src/App.tsx `DEFAULT_SETTINGS` shape). -/
structure Settings where
  logo : String
  minBilling : ℚ
  sellRatePercent : ℚ
  buyRateMultiplier : ℚ
  pgaMultiplier : ℚ
  standardBuyFormula : String
  standardSellFormula : String
  pgaBuyFormula : String
  pgaSellFormula : String
deriving DecidableEq

/-- `DEFAULT_SETTINGS` (src/App.tsx lines 31-41). -/
def DEFAULT_SETTINGS : Settings :=
  ⟨"logo.png", 65, mkRat 40 100, mkRat 99 100, 3,
   "((invoice_value + duties) * 0.99) / 1000",
   "((invoice_value + duties) * 0.40) / 100",
   "(((invoice_value_with_pga * 3) + invoice_value_without_pga) * 0.99) / 1000",
   "(((invoice_value_with_pga * 3) + invoice_value_without_pga) * 0.40) / 100"⟩

/-- Result record of the standard-entry pipeline (src/App.tsx
`withoutPgaResults`). -/
structure StdResult where
  buy : String
  sell : String
  isBelowMin : Bool
  sellWarning : Option String
deriving DecidableEq

/-- `withoutPgaAmount` (src/App.tsx lines 136-140): the two raw text
inputs, each put through `parseFloat(x) || 0`, summed.  The intermediate
`toString`/`parseFloat` round trip of the sum is exact and omitted. -/
def withoutPgaAmount (invoiceWithoutPga dutiesWithoutPga : Option ℚ) : ℚ :=
  qadd (invoiceWithoutPga.getD 0) (dutiesWithoutPga.getD 0)

/-- The warning string attached below the minimum
(src/App.tsx line 200). -/
def minBillingWarning (m : ℚ) : String :=
  "Note: A minimum billing of " ++ ("$" ++ formatFixed 2 m) ++ " usually applies."

/-- `withoutPgaResults` (src/App.tsx lines 192-202). -/
def withoutPgaResults (amount : ℚ) (s : Settings) : StdResult :=
  let sellVal := qdiv (qmul amount s.sellRatePercent) 100
  let isBelowMin := decide (0 < amount) && decide (sellVal < s.minBilling)
  ⟨formatFixed 6 (qdiv (qmul amount s.buyRateMultiplier) 1000),
   formatFixed 6 sellVal,
   isBelowMin,
   if isBelowMin then some (minBillingWarning s.minBilling) else none⟩

/-- Result record of the sandbox preview (src/App.tsx `testResults`). -/
structure TestResult where
  buy : String
  sell : String
deriving DecidableEq

/-- `testResults` (src/App.tsx lines 220-226): the sandbox preview of a
draft configuration, on the fixed probe entry 10000, with the sell output
clamped to the minimum billing by `Math.max`. -/
def testResults (temp : Settings) : TestResult :=
  let testValue : ℚ := 10000
  let buy := formatFixed 6 (qdiv (qmul testValue temp.buyRateMultiplier) 1000)
  let sellVal := qdiv (qmul testValue temp.sellRatePercent) 100
  let sell := formatFixed 6 (max temp.minBilling sellVal)
  ⟨buy, sell⟩

/-- The validation table of `saveSettings` (src/App.tsx lines 306-311):
each formula slot with its required variables and its display name, in
source order. -/
def validationsOf (temp : Settings) : List (String × List String × String) :=
  [(temp.standardBuyFormula, ["invoice_value", "duties"], "Standard Buy Formula"),
   (temp.standardSellFormula, ["invoice_value", "duties"], "Standard Sell Formula"),
   (temp.pgaBuyFormula, ["invoice_value_with_pga", "invoice_value_without_pga"], "PGA Buy Formula"),
   (temp.pgaSellFormula, ["invoice_value_with_pga", "invoice_value_without_pga"], "PGA Sell Formula")]

/-- The validation loop of `saveSettings` (src/App.tsx lines 313-318): the
name of the first formula that fails validation, if any. -/
def firstFailure : List (String × List String × String) → Option String
  | [] => none
  | (f, vs, name) :: rest => if validateFormula f vs then firstFailure rest else some name

/-- `saveSettings` (src/App.tsx lines 304-324), observably: the commit
replaces the active settings by the draft only when every formula
validates; on the first failure it aborts, surfacing the failed formula's
name, and the active settings are untouched. -/
def saveSettings (temp active : Settings) : Settings × Option String :=
  match firstFailure (validationsOf temp) with
  | some name => (active, some name)
  | none => (temp, none)

/-- The quick-calculator session (src/App.tsx `calcDisplay`,
`calcExpression`, `calcMemory` state hooks; the append-only `calcHistory`
is never written by `handleCalcBtn` and is omitted). -/
structure CalcState where
  calcDisplay : String
  calcExpression : String
  calcMemory : Option ℚ
deriving DecidableEq

/-- The initial calculator session (src/App.tsx lines 120-122). -/
def calcInitState : CalcState := ⟨"0", "", none⟩

/-- An operator character of the `.`-event tokenization
(the split class `[+\-×÷*/]` of src/App.tsx line 259). -/
def isCalcOp (c : Char) : Bool :=
  c == '+' || c == '-' || c == '×' || c == '÷' || c == '*' || c == '/'

/-- The current numeric token per the code:
`calcExpression.split(/[+\-×÷*/]/).pop() || ''`, i.e. the run of
characters after the last operator character (parentheses and every other
character do NOT delimit tokens). -/
def codeLastToken (e : String) : List Char :=
  (e.data.reverse.takeWhile (fun c => !isCalcOp c)).reverse

/-- The current numeric token per the SPECIFICATION text of the decimal
rule, which says a token is the run of characters since the last operator
OR PARENTHESIS; modelled from the spec for comparison with
`codeLastToken`. -/
def claimLastToken (e : String) : List Char :=
  (e.data.reverse.takeWhile (fun c => !(isCalcOp c || c == '(' || c == ')'))).reverse

/-- Glyph translation of the `=` event (src/App.tsx line 267):
`replace(/×/g, '*').replace(/÷/g, '/')`. -/
def glyphChar (c : Char) : Char := if c = '×' then '*' else if c = '÷' then '/' else c

/-- The translated expression `cleanExpr` of the `=` event. -/
def cleanCalcExpr (e : String) : String := String.mk (e.data.map glyphChar)

/-- A character accepted by the `=` event's safety gate
`/[^0-9+\-*/.]/` (src/App.tsx line 269): a digit or one of `+ - * / .`
(no whitespace, no parentheses). -/
def calcOkChar (c : Char) : Bool :=
  c.isDigit || c == '+' || c == '-' || c == '*' || c == '/' || c == '.'

/-- `toFixed(8)` followed by `parseFloat` (src/App.tsx line 271): round to
8 decimal places, half away from zero. -/
def fixRound8 (r : ℚ) : ℚ :=
  if r.num < 0 then qneg (mkRat (fixMag 8 r) (10 ^ 8)) else mkRat (fixMag 8 r) (10 ^ 8)

/-- The display value of an `=` result: an integer is shown bare, any
other finite number is rounded to 8 decimals; `Infinity` and `NaN` pass
through `toFixed`/`parseFloat` textually unchanged. -/
def roundForDisplay : JsVal → JsVal
  | .num r => .num (if r.den = 1 then r else fixRound8 r)
  | v => v

/-- `String(x)` on a JavaScript number value. -/
def jsValToString : JsVal → String
  | .num q => ratToString q
  | .inf true => "Infinity"
  | .inf false => "-Infinity"
  | .nan => "NaN"

/-- JavaScript `parseFloat` on the strings reachable in the calculator
display: skip leading whitespace, optional sign, then the longest decimal
prefix (digits, optionally a dot and more digits); `none` models `NaN`.
Exponent notation cannot be produced by the calculator's input vocabulary
and is omitted. -/
def jsParseFloat (s : String) : Option ℚ :=
  let l := s.data.dropWhile isWsChar
  let (negSign, l) : Bool × List Char :=
    match l with
    | '-' :: r => (true, r)
    | '+' :: r => (false, r)
    | r => (false, r)
  let ip := l.takeWhile Char.isDigit
  let rest := l.drop ip.length
  let fp : List Char :=
    match rest with
    | '.' :: r => r.takeWhile Char.isDigit
    | _ => []
  if ip = [] ∧ fp = [] then none
  else
    let mag : ℚ := mkRat ((digitsVal ip * 10 ^ fp.length + digitsVal fp : ℕ) : ℤ) (10 ^ fp.length)
    some (if negSign then qneg mag else mag)

/-- `handleCalcBtn` (src/App.tsx lines 228-289): one step of the
calculator state machine. -/
def handleCalcBtn (val : String) (s : CalcState) : CalcState :=
  if val = "C" then ⟨"0", "", s.calcMemory⟩
  else if val = "Backspace" then
    ⟨if 1 < s.calcDisplay.length then String.mk s.calcDisplay.data.dropLast else ("0"),
     String.mk s.calcExpression.data.dropLast, s.calcMemory⟩
  else if val = "MC" then ⟨s.calcDisplay, s.calcExpression, none⟩
  else if val = "MR" then
    match s.calcMemory with
    | some m => ⟨ratToString m, ratToString m, some m⟩
    | none => s
  else if val = "MS" then
    match jsParseFloat s.calcDisplay with
    | some v => ⟨s.calcDisplay, s.calcExpression, some v⟩
    | none => s
  else if val = "M+" then
    match jsParseFloat s.calcDisplay with
    | some v =>
      ⟨s.calcDisplay, s.calcExpression,
       some (match s.calcMemory with
             | some m => qadd m v
             | none => v)⟩
    | none => s
  else if val = "." then
    if (codeLastToken s.calcExpression).any (fun c => c == '.') then s
    else
      ⟨if s.calcDisplay = "0" ∨ s.calcDisplay = "Error" then ("0.") else s.calcDisplay ++ ".",
       if s.calcExpression = "" then ("0.") else s.calcExpression ++ ".",
       s.calcMemory⟩
  else if val = "=" then
    let cleanExpr := cleanCalcExpr s.calcExpression
    if cleanExpr.data.any (fun c => !calcOkChar c) then ⟨"Error", "", s.calcMemory⟩
    else
      match jsEval cleanExpr with
      | some v =>
        let shown := jsValToString (roundForDisplay v)
        ⟨shown, shown, s.calcMemory⟩
      | none => ⟨"Error", "", s.calcMemory⟩
  else
    if s.calcDisplay = "0" ∧ ¬(val = "+" ∨ val = "-" ∨ val = "×" ∨ val = "÷") then
      ⟨val, val, s.calcMemory⟩
    else
      ⟨if s.calcDisplay = "Error" then val else s.calcDisplay ++ val,
       s.calcExpression ++ val, s.calcMemory⟩

/-- Folding a sequence of button events from the initial session. -/
def calcSeq (l : List String) : CalcState :=
  l.foldl (fun s v => handleCalcBtn v s) calcInitState

/-- Modelled from the spec (claim C2): the claimed character set of the
formula security gate, `{digits, whitespace, + - * / ( )}`, which omits
the decimal point that the code's class `[\d\s+\-*/().]` admits. -/
def claimFormulaChar (c : Char) : Bool :=
  c.isDigit || isWsChar c ||
    c == '+' || c == '-' || c == '*' || c == '/' || c == '(' || c == ')'

/-- Modelled from the spec (claim C9): validation succeeds exactly when
every required variable occurs literally in the formula text. -/
def validateSpec (formula : String) (requiredVars : List String) : Bool :=
  requiredVars.all (fun v => containsSub formula v)

theorem qadd_eq (a b : ℚ) : qadd a b = a + b := (Rat.add_def' a b).symm

theorem qneg_eq (a : ℚ) : qneg a = -a := by
  rw [qneg, ← Rat.neg_mkRat, Rat.mkRat_self]

theorem qsub_eq (a b : ℚ) : qsub a b = a - b := by
  rw [qsub, qadd_eq, qneg_eq, sub_eq_add_neg]

theorem qmul_eq (a b : ℚ) : qmul a b = a * b := by
  rw [qmul, ← Rat.normalize_eq_mkRat (Nat.mul_ne_zero a.den_nz b.den_nz), ← Rat.mul_def]

theorem qdiv_eq (a b : ℚ) : qdiv a b = a / b := by
  rw [qdiv, Rat.divInt_eq_div]
  by_cases hb : b = 0
  · subst hb
    simp
  · have had : ((a.den : ℚ)) ≠ 0 := Nat.cast_ne_zero.mpr a.den_nz
    have hbd : ((b.den : ℚ)) ≠ 0 := Nat.cast_ne_zero.mpr b.den_nz
    have hbn : ((b.num : ℚ)) ≠ 0 := by
      exact_mod_cast Rat.num_ne_zero.mpr hb
    conv_rhs => rw [← Rat.num_div_den a, ← Rat.num_div_den b]
    push_cast
    field_simp

theorem strData_append (a b : String) : (a ++ b).data = a.data ++ b.data := by
  cases a
  cases b
  rfl

theorem hasPre_append_self (p t : List Char) : hasPre p (p ++ t) = true := by
  induction p with
  | nil => rfl
  | cons c cs ih => simp [hasPre, ih]

theorem hasSub_nil (s : List Char) : hasSub [] s = true := by
  cases s with
  | nil => rfl
  | cons c cs => simp [hasSub, hasPre]

theorem hasSub_append_mid (p a b : List Char) : hasSub p (a ++ (p ++ b)) = true := by
  induction a with
  | nil =>
    show hasSub p (p ++ b) = true
    cases p with
    | nil => exact hasSub_nil b
    | cons q qs =>
      have h1 : hasPre (q :: qs) (q :: (qs ++ b)) = true := hasPre_append_self (q :: qs) b
      simp [hasSub, h1]
  | cons x xs ih => simp [hasSub, ih]

theorem hasPre_mem (p : List Char) : ∀ s, hasPre p s = true → ∀ c ∈ p, c ∈ s := by
  induction p with
  | nil => simp
  | cons q qs ih =>
    intro s h c hc
    cases s with
    | nil => simp [hasPre] at h
    | cons x xs =>
      simp only [hasPre, Bool.and_eq_true, beq_iff_eq] at h
      rcases List.mem_cons.mp hc with rfl | hc'
      · exact h.1 ▸ List.mem_cons_self _ _
      · exact List.mem_cons_of_mem _ (ih xs h.2 c hc')

theorem hasSub_mem {p s : List Char} (h : hasSub p s = true) : ∀ c ∈ p, c ∈ s := by
  induction s with
  | nil =>
    intro c hc
    cases p with
    | nil => simp at hc
    | cons q qs => simp [hasSub, hasPre] at h
  | cons x xs ih =>
    intro c hc
    cases hq : hasPre p (x :: xs) with
    | true => exact hasPre_mem p (x :: xs) hq c hc
    | false =>
      have h2 : hasSub p xs = true := by
        simp only [hasSub, hq, Bool.false_or] at h
        exact h
      exact List.mem_cons_of_mem _ (ih h2 c hc)

theorem checkVarsB_eq_all (f : String) (vs : List String) :
    checkVarsB f vs = vs.all (fun v => containsSub f v) := by
  induction vs with
  | nil => rfl
  | cons v rest ih =>
    by_cases h : containsSub f v = true
    · simp [checkVarsB, h, ih]
    · simp [checkVarsB, Bool.eq_false_iff.mpr h]

theorem suffixB_append (p l : List Char) : suffixB p (l ++ p) = true := by
  rw [suffixB, List.reverse_append]
  exact hasPre_append_self _ _

theorem handleCalc_eq_step (s : CalcState) :
    handleCalcBtn ("=") s =
      (if (cleanCalcExpr s.calcExpression).data.any (fun c => !calcOkChar c) then
        ⟨"Error", "", s.calcMemory⟩
      else
        match jsEval (cleanCalcExpr s.calcExpression) with
        | some v =>
          ⟨jsValToString (roundForDisplay v), jsValToString (roundForDisplay v), s.calcMemory⟩
        | none => ⟨"Error", "", s.calcMemory⟩) := rfl

theorem handleCalc_dot_step (s : CalcState) :
    handleCalcBtn (".") s =
      (if (codeLastToken s.calcExpression).any (fun c => c == '.') then s
       else
        ⟨if s.calcDisplay = "0" ∨ s.calcDisplay = "Error" then ("0.") else s.calcDisplay ++ ".",
         if s.calcExpression = "" then ("0.") else s.calcExpression ++ ".", s.calcMemory⟩) := rfl

theorem handleCalc_sqrt_step (s : CalcState) :
    handleCalcBtn ("Math.sqrt(") s =
      (if s.calcDisplay = "0" ∧
          ¬(("Math.sqrt(" : String) = "+" ∨ ("Math.sqrt(" : String) = "-" ∨
            ("Math.sqrt(" : String) = "×" ∨ ("Math.sqrt(" : String) = "÷") then
        ⟨"Math.sqrt(", "Math.sqrt(", s.calcMemory⟩
      else
        ⟨if s.calcDisplay = "Error" then ("Math.sqrt(") else s.calcDisplay ++ "Math.sqrt(",
         s.calcExpression ++ "Math.sqrt(", s.calcMemory⟩) := rfl

/-- C1: for every pair of raw text inputs and every rate configuration,
the standard-entry pipeline computes `baseAmount` as the sum of the two
inputs (unparseable text as 0), `sell` as `(baseAmount * sellRatePercent)
/ 100` formatted to 6 decimals without clamping, `buy` as `(baseAmount *
buyRateMultiplier) / 1000` to 6 decimals, and `isBelowMin` as `baseAmount
> 0 AND sell < minBilling` with a warning referencing the minimum; with
invoice 1000, duties 0 and the default configuration, `sell` is
"4.000000", `isBelowMin` is true and the warning references $65.00. -/
theorem spec_C1 :
    (∀ (inv dut : Option ℚ) (s : Settings),
      withoutPgaResults (withoutPgaAmount inv dut) s =
        ⟨formatFixed 6 (qdiv (qmul (qadd (inv.getD 0) (dut.getD 0)) s.buyRateMultiplier) 1000),
         formatFixed 6 (qdiv (qmul (qadd (inv.getD 0) (dut.getD 0)) s.sellRatePercent) 100),
         decide (0 < qadd (inv.getD 0) (dut.getD 0)) &&
           decide (qdiv (qmul (qadd (inv.getD 0) (dut.getD 0)) s.sellRatePercent) 100 < s.minBilling),
         if (decide (0 < qadd (inv.getD 0) (dut.getD 0)) &&
             decide (qdiv (qmul (qadd (inv.getD 0) (dut.getD 0)) s.sellRatePercent) 100 < s.minBilling)) = true
         then some (minBillingWarning s.minBilling) else none⟩) ∧
    (∀ m : ℚ, containsSub (minBillingWarning m) ("$" ++ formatFixed 2 m) = true) ∧
    ((withoutPgaResults (withoutPgaAmount (some 1000) (some 0)) DEFAULT_SETTINGS).sell
        = "4.000000" ∧
     (withoutPgaResults (withoutPgaAmount (some 1000) (some 0)) DEFAULT_SETTINGS).isBelowMin
        = true ∧
     (withoutPgaResults (withoutPgaAmount (some 1000) (some 0)) DEFAULT_SETTINGS).sellWarning
        = some (minBillingWarning 65) ∧
     containsSub (minBillingWarning 65) "$65.00" = true) := by
  refine ⟨fun inv dut s => rfl, fun m => ?_, by decide, by decide, by decide, by decide⟩
  show hasSub ("$" ++ formatFixed 2 m).data
    ("Note: A minimum billing of " ++ ("$" ++ formatFixed 2 m) ++ " usually applies.").data = true
  simp only [strData_append]
  rw [List.append_assoc]
  exact hasSub_append_mid _ _ _

/-- C2 (amended): the formula evaluator returns the safe fallback 0
whenever the substituted expression contains a character outside
`{digits, whitespace, + - * / ( ) .}` — the decimal point belongs to the
code's admitted set. -/
theorem spec_C2 (formula : String) (vars : List (String × ℚ))
    (h : (substituteVars formula vars).data.any
          (fun c => !(formulaOkChar c || isWsChar c)) = true) :
    evaluateFormula formula vars = 0 := by
  rcases List.any_eq_true.mp h with ⟨c, hc, hbad⟩
  have hok : formulaOkChar c = false := by
    cases hfc : formulaOkChar c <;> simp [hfc] at hbad ⊢
  have hws : isWsChar c = false := by
    cases hwc : isWsChar c <;> simp [hwc] at hbad ⊢
  have hmem : c ∈ (substituteVars formula vars).data.filter (fun x => !isWsChar x) :=
    List.mem_filter.mpr ⟨hc, by simp [hws]⟩
  have hallf : ((substituteVars formula vars).data.filter (fun x => !isWsChar x)).all
      (fun c => formulaOkChar c || isWsChar c) = false := by
    cases hall : ((substituteVars formula vars).data.filter (fun x => !isWsChar x)).all
        (fun c => formulaOkChar c || isWsChar c) with
    | true => exact absurd (List.all_eq_true.mp hall c hmem) (by simp [hok, hws])
    | false => rfl
  have hgate : formulaGate (substituteVars formula vars) = false := by
    simp [formulaGate, hallf]
  simp [evaluateFormula, hgate]

/-- C2 witness: a substituted expression containing a letter is rejected
with result 0. -/
theorem spec_C2_witness : evaluateFormula ("x") [] = 0 :=
  spec_C2 ("x") [] (by decide)

/-- C2 counterexample to the claim as stated: the substituted expression
"0.5" contains a character (the decimal point) outside the claimed set,
yet the evaluator returns 0.5, not the fallback 0. -/
theorem spec_C2_counterexample :
    (substituteVars ("0.5") []).data.any (fun c => !claimFormulaChar c) = true ∧
    evaluateFormula ("0.5") [] = mkRat 1 2 ∧ (mkRat 1 2 : ℚ) ≠ 0 := by
  refine ⟨by decide, by decide, by decide⟩

/-- C3: if any of the four formula slots fails validation, the commit is
rejected and the active configuration is exactly unchanged. -/
theorem spec_C3 (temp active : Settings)
    (h : validateFormula temp.standardBuyFormula ["invoice_value", "duties"] = false ∨
         validateFormula temp.standardSellFormula ["invoice_value", "duties"] = false ∨
         validateFormula temp.pgaBuyFormula
           ["invoice_value_with_pga", "invoice_value_without_pga"] = false ∨
         validateFormula temp.pgaSellFormula
           ["invoice_value_with_pga", "invoice_value_without_pga"] = false) :
    (saveSettings temp active).1 = active := by
  cases hff : firstFailure (validationsOf temp) with
  | some name => simp [saveSettings, hff]
  | none =>
    exfalso
    by_cases h1 : validateFormula temp.standardBuyFormula ["invoice_value", "duties"] = true <;>
      by_cases h2 : validateFormula temp.standardSellFormula ["invoice_value", "duties"] = true <;>
      by_cases h3 : validateFormula temp.pgaBuyFormula
        ["invoice_value_with_pga", "invoice_value_without_pga"] = true <;>
      by_cases h4 : validateFormula temp.pgaSellFormula
        ["invoice_value_with_pga", "invoice_value_without_pga"] = true <;>
      simp_all [validationsOf, firstFailure]

/-- C3 witness: a draft whose standard buy formula lacks the required
variables is rejected, leaving the default settings active. -/
theorem spec_C3_witness :
    (saveSettings
      ⟨"logo.png", 65, mkRat 40 100, mkRat 99 100, 3, "1+1",
       "((invoice_value + duties) * 0.40) / 100",
       "(((invoice_value_with_pga * 3) + invoice_value_without_pga) * 0.99) / 1000",
       "(((invoice_value_with_pga * 3) + invoice_value_without_pga) * 0.40) / 100"⟩
      DEFAULT_SETTINGS).1 = DEFAULT_SETTINGS :=
  spec_C3 _ _ (Or.inl (by decide))

/-- C4: validation returns false when some required variable is not a
literal substring, and otherwise probes the evaluator with every required
variable bound to 100 and returns the `!isNaN && isFinite` test of the
result. -/
theorem spec_C4 (formula : String) (requiredVars : List String) :
    validateFormula formula requiredVars =
      (requiredVars.all (fun v => containsSub formula v) &&
       (!jsIsNaN (evaluateFormula formula (requiredVars.map (fun v => (v, (100 : ℚ))))) &&
        jsIsFinite (evaluateFormula formula (requiredVars.map (fun v => (v, (100 : ℚ))))))) := by
  simp only [validateFormula]
  rw [checkVarsB_eq_all]
  cases h : requiredVars.all (fun v => containsSub formula v) <;> simp [h]

/-- C9: validation reduces to the literal-substring test alone — the probe
evaluation can never fail, because the evaluator is total and its final
clamp returns a finite number on every input, so the `!isNaN && isFinite`
test always passes. -/
theorem spec_C9 (formula : String) (requiredVars : List String) :
    validateFormula formula requiredVars = validateSpec formula requiredVars := by
  simp only [validateFormula, validateSpec, jsIsNaN, jsIsFinite]
  rw [checkVarsB_eq_all]
  cases h : requiredVars.all (fun v => containsSub formula v) <;> simp [h]

/-- C5: the `=` event translates × and ÷, rejects any translated
expression containing a character outside `{digits, + - * / .}` into the
Error state, otherwise displays the evaluated numeric result (integers
bare, non-integers rounded to 8 decimals) as both display and expression;
the sequence 7, +, 3, = yields "10" and continuing +, 2, = yields "12". -/
theorem spec_C5 :
    (∀ s : CalcState,
      (cleanCalcExpr s.calcExpression).data.any (fun c => !calcOkChar c) = true →
      handleCalcBtn ("=") s = ⟨"Error", "", s.calcMemory⟩) ∧
    (∀ (s : CalcState) (r : ℚ),
      (cleanCalcExpr s.calcExpression).data.any (fun c => !calcOkChar c) = false →
      jsEval (cleanCalcExpr s.calcExpression) = some (.num r) →
      handleCalcBtn ("=") s =
        ⟨ratToString (if r.den = 1 then r else fixRound8 r),
         ratToString (if r.den = 1 then r else fixRound8 r), s.calcMemory⟩) ∧
    calcSeq ["7", "+", "3", "="] = ⟨"10", "10", none⟩ ∧
    calcSeq ["7", "+", "3", "=", "+", "2", "="] = ⟨"12", "12", none⟩ := by
  refine ⟨?_, ?_, by decide, by decide⟩
  · intro s h
    rw [handleCalc_eq_step, if_pos h]
  · intro s r h he
    rw [handleCalc_eq_step, if_neg (by simp [h]), he]
    rfl

/-- C5 witness: a gate rejection and a successful chained evaluation at
concrete states. -/
theorem spec_C5_witness :
    handleCalcBtn ("=") ⟨"0", "5+a", none⟩ = ⟨"Error", "", none⟩ ∧
    handleCalcBtn ("=") ⟨"7+3", "7+3", none⟩ = ⟨"10", "10", none⟩ := by
  constructor
  · exact spec_C5.1 ⟨"0", "5+a", none⟩ (by decide)
  · exact (spec_C5.2.1 ⟨"7+3", "7+3", none⟩ 10 (by decide) (by decide)).trans (by decide)

/-- C6: the sandbox preview uses the fixed probe entry 10000 and clamps
its sell output to `max(minBilling, sellValue)` while its buy output is
unclamped; the live standard path formats the same sell value without the
clamp. -/
theorem spec_C6 :
    (∀ temp : Settings,
      testResults temp =
        ⟨formatFixed 6 (qdiv (qmul 10000 temp.buyRateMultiplier) 1000),
         formatFixed 6 (max temp.minBilling (qdiv (qmul 10000 temp.sellRatePercent) 100))⟩) ∧
    (∀ (amount : ℚ) (s : Settings),
      (withoutPgaResults amount s).sell = formatFixed 6 (qdiv (qmul amount s.sellRatePercent) 100)) :=
  ⟨fun _ => rfl, fun _ _ => rfl⟩

/-- C7: at the failing input, the substitution step corrupts the longer
variable name `invoice_value_with_pga` while replacing its prefix
`invoice_value` (bound first), producing "1000_with_pga" instead of the
claimed uncorrupted substitution "500"; the corrupted expression then
fails the gate and evaluates to 0. -/
theorem spec_C7 :
    substituteVars ("invoice_value_with_pga")
        [("invoice_value", 1000), ("invoice_value_with_pga", 500)] = "1000_with_pga" ∧
    substituteVars ("invoice_value_with_pga")
        [("invoice_value", 1000), ("invoice_value_with_pga", 500)] ≠ "500" ∧
    evaluateFormula ("invoice_value_with_pga")
        [("invoice_value", 1000), ("invoice_value_with_pga", 500)] = 0 := by
  refine ⟨by decide, by decide, by decide⟩

/-- C8 (amended): the decimal point is permitted at most once per numeric
token, where a token is the run of characters since the last operator
character among `+ - × ÷ * /` (parentheses do not delimit tokens): if the
current token contains '.', the event is rejected with no state change,
otherwise the point is accepted into display and expression. -/
theorem spec_C8 (s : CalcState) :
    ((codeLastToken s.calcExpression).any (fun c => c == '.') = true →
      handleCalcBtn (".") s = s) ∧
    ((codeLastToken s.calcExpression).any (fun c => c == '.') = false →
      handleCalcBtn (".") s =
        ⟨if s.calcDisplay = "0" ∨ s.calcDisplay = "Error" then ("0.") else s.calcDisplay ++ ".",
         if s.calcExpression = "" then ("0.") else s.calcExpression ++ ".", s.calcMemory⟩) := by
  constructor
  · intro h
    rw [handleCalc_dot_step, if_pos h]
  · intro h
    rw [handleCalc_dot_step, if_neg (by simp [h])]

/-- C8 witness: a token already holding '.' rejects the event; the initial
state accepts it as "0.". -/
theorem spec_C8_witness :
    handleCalcBtn (".") ⟨"1.2", "1.2", none⟩ = ⟨"1.2", "1.2", none⟩ ∧
    handleCalcBtn (".") ⟨"0", "", none⟩ = ⟨"0.", "0.", none⟩ := by
  constructor
  · exact (spec_C8 ⟨"1.2", "1.2", none⟩).1 (by decide)
  · exact ((spec_C8 ⟨"0", "", none⟩).2 (by decide)).trans (by decide)

/-- C8 counterexample to the claim as stated: after the square-root quick
function the expression is "Math.sqrt("; per the claim's token definition
(run since the last operator or parenthesis) the current token is empty
and contains no '.', so the claim says the decimal point is accepted — but
the code's tokenization does not treat '(' as a delimiter, finds the '.'
of "Math.sqrt(" in the token, and rejects the event with no state
change. -/
theorem spec_C8_counterexample :
    calcSeq ["Math.sqrt("] = ⟨"Math.sqrt(", "Math.sqrt(", none⟩ ∧
    (claimLastToken ("Math.sqrt(")).any (fun c => c == '.') = false ∧
    handleCalcBtn (".") ⟨"Math.sqrt(", "Math.sqrt(", none⟩ =
      ⟨"Math.sqrt(", "Math.sqrt(", none⟩ := by
  refine ⟨by decide, by decide, by decide⟩

/-- C10: the square-root quick function leaves the expression ending in
the literal fragment "Math.sqrt(" (an exact append whenever the display is
not "0"), and any expression containing that fragment is necessarily sent
to the Error state by `=`, since the fragment's letters fall outside the
gate's character set. -/
theorem spec_C10 :
    (∀ s : CalcState,
      suffixB ("Math.sqrt(").data ((handleCalcBtn ("Math.sqrt(") s).calcExpression).data = true) ∧
    (∀ s : CalcState, s.calcDisplay ≠ "0" →
      (handleCalcBtn ("Math.sqrt(") s).calcExpression = s.calcExpression ++ "Math.sqrt(") ∧
    (∀ s : CalcState, containsSub s.calcExpression ("Math.sqrt(") = true →
      handleCalcBtn ("=") s = ⟨"Error", "", s.calcMemory⟩) := by
  refine ⟨?_, ?_, ?_⟩
  · intro s
    rw [handleCalc_sqrt_step]
    by_cases h : s.calcDisplay = "0"
    · rw [if_pos ⟨h, by decide⟩]
      show suffixB ("Math.sqrt(").data ("Math.sqrt(" : String).data = true
      decide
    · rw [if_neg (by simp [h])]
      show suffixB ("Math.sqrt(").data ((s.calcExpression ++ "Math.sqrt(").data) = true
      rw [strData_append]
      exact suffixB_append _ _
  · intro s h
    rw [handleCalc_sqrt_step, if_neg (by simp [h])]
  · intro s h
    have hM : 'M' ∈ s.calcExpression.data := hasSub_mem h 'M' (by decide)
    have hM2 : 'M' ∈ (cleanCalcExpr s.calcExpression).data :=
      List.mem_map.mpr ⟨'M', hM, rfl⟩
    have hbad : (cleanCalcExpr s.calcExpression).data.any (fun c => !calcOkChar c) = true :=
      List.any_eq_true.mpr ⟨'M', hM2, by decide⟩
    rw [handleCalc_eq_step, if_pos hbad]

/-- C10 witness: a concrete append and a concrete rejection. -/
theorem spec_C10_witness :
    (handleCalcBtn ("Math.sqrt(") ⟨"5", "5", none⟩).calcExpression = "5Math.sqrt(" ∧
    handleCalcBtn ("=") ⟨"5Math.sqrt(", "5Math.sqrt(", none⟩ = ⟨"Error", "", none⟩ := by
  constructor
  · exact (spec_C10.2.1 ⟨"5", "5", none⟩ (by decide)).trans (by decide)
  · exact spec_C10.2.2 ⟨"5Math.sqrt(", "5Math.sqrt(", none⟩ (by decide)

end TEU
